import Mathlib

/-!
Verification development for the Feza release pipeline (src/feza/main.py).

Strings are modelled as lists of characters.  Each `sys.exit` message in the
source is modelled by a constructor of the error type `Err`.  External effects
(subprocess invocations, file writes) are modelled as explicit effect traces.
The regular expressions of the source are modelled with Python semantics:
the character class \d of a str pattern matches every Unicode decimal digit
(category Nd, embedded below as explicit code point ranges enumerated from
the CPython re module), and the anchor $ used with re.match also matches
just before one final newline character.
-/

abbrev Chars := List Char

deriving instance DecidableEq for Except

/-- Every distinct `sys.exit` error site of main.py, as one constructor. -/
inductive Err where
  | invalidTagFormat
  | invalidVersionFormat
  | notGitRepo
  | dirtyTree
  | invalidTargetFormat
  | tagMismatch
  | repoRequired
  | targetNotFoundInManifest
  | artifactsDirNotFound
  | binaryNotFound
  | scriptFailed
  | assetMissingSha
  | assetFileNotFound
  | versionNotFound
  | versionRequired
  | versionUnchanged
  | versionFieldNotFound
  | stageFailed
  | commitFailed
  | pushFailed
  | pushRequiresCommit
deriving DecidableEq

/-- Inclusive code point ranges of the non-ASCII Unicode decimal digits
(general category Nd): the characters beyond 0-9 that the character class
\d of a CPython str pattern matches.  Enumerated from the re module. -/
def ndRangesExtra : List (Nat × Nat) := [
  (1632, 1641), (1776, 1785), (1984, 1993), (2406, 2415), (2534, 2543),
  (2662, 2671), (2790, 2799), (2918, 2927), (3046, 3055), (3174, 3183),
  (3302, 3311), (3430, 3439), (3558, 3567), (3664, 3673), (3792, 3801),
  (3872, 3881), (4160, 4169), (4240, 4249), (6112, 6121), (6160, 6169),
  (6470, 6479), (6608, 6617), (6784, 6793), (6800, 6809), (6992, 7001),
  (7088, 7097), (7232, 7241), (7248, 7257), (42528, 42537), (43216, 43225),
  (43264, 43273), (43472, 43481), (43504, 43513), (43600, 43609),
  (44016, 44025), (65296, 65305), (66720, 66729), (68912, 68921),
  (69734, 69743), (69872, 69881), (69942, 69951), (70096, 70105),
  (70384, 70393), (70736, 70745), (70864, 70873), (71248, 71257),
  (71360, 71369), (71472, 71481), (71904, 71913), (72016, 72025),
  (72784, 72793), (73040, 73049), (73120, 73129), (92768, 92777),
  (92864, 92873), (93008, 93017), (120782, 120831), (123200, 123209),
  (123632, 123641), (125264, 125273), (130032, 130041)]

/-- The character class \d of a Python str pattern: an ASCII digit 0-9 or
any other Unicode decimal digit. -/
def isPyDigit (c : Char) : Bool :=
  c.isDigit || ndRangesExtra.any (fun r => r.1 ≤ c.toNat && c.toNat ≤ r.2)

/-- Longest \d-run split: consumes the maximal leading run of digits. -/
def takeDigits : Chars → Chars × Chars
  | [] => ([], [])
  | c :: cs =>
    if isPyDigit c then
      let p := takeDigits cs
      (c :: p.1, p.2)
    else ([], c :: cs)

/-- Consume one literal dot character. -/
def expectDot : Chars → Option Chars
  | c :: rest => if c = '.' then some rest else none
  | [] => none

/-- The anchor $ of re.match on a str: it matches at the very end of the
string and also just before a single final newline. -/
def dollarEnd (l : Chars) : Bool :=
  l.isEmpty || l = ['\n']

/-- Matcher for the anchored regex \d+\.\d+\.\d+$ under Python semantics
(greedy digit runs are complete here because a digit run can only be
followed by the literal dot or the end anchor, neither of which matches a
digit character). -/
def matchNums (l : Chars) : Bool :=
  if (takeDigits l).1.isEmpty then false else
  match expectDot (takeDigits l).2 with
  | none => false
  | some r2 =>
    if (takeDigits r2).1.isEmpty then false else
    match expectDot (takeDigits r2).2 with
    | none => false
    | some r4 =>
      if (takeDigits r4).1.isEmpty then false else dollarEnd (takeDigits r4).2

/-- Matcher for the full regex of validate_tag: ^v\d+\.\d+\.\d+$ . -/
def matchesTagPattern : Chars → Bool
  | [] => false
  | c :: rest => if c = 'v' then matchNums rest else false

/-- main.py line 22: validate_tag.  On a match it returns the pair of the tag
and the tag with all leading v characters stripped (Python lstrip("v")). -/
def validate_tag (tag : Chars) : Except Err (Chars × Chars) :=
  if matchesTagPattern tag then
    Except.ok (tag, tag.dropWhile (fun c => c = 'v'))
  else
    Except.error Err.invalidTagFormat

/-- main.py line 30: validate_version. -/
def validate_version (version : Chars) : Except Err Chars :=
  if matchNums version then Except.ok version else Except.error Err.invalidVersionFormat

/-- Split on a one-character separator, exactly as Python str.split with a
non-empty separator (keeps empty parts, result is never empty). -/
def splitSep (sep : Char) : Chars → List Chars
  | [] => [[]]
  | c :: cs =>
    if c = sep then [] :: splitSep sep cs
    else
      match splitSep sep cs with
      | [] => [[c]]
      | p :: ps => (c :: p) :: ps

/-- Python str.strip(): drop whitespace from both ends. -/
def pystrip (l : Chars) : Chars :=
  ((l.dropWhile Char.isWhitespace).reverse.dropWhile Char.isWhitespace).reverse

/-- main.py line 121: target_to_filename. -/
def target_to_filename (target name : Chars) : Except Err Chars :=
  match splitSep '-' target with
  | [os_part, arch_part] =>
    let os_name := if os_part = "macos".data then "darwin".data else os_part
    Except.ok (name ++ '-' :: (os_name ++ '-' :: (arch_part ++ ".tar.gz".data)))
  | _ => Except.error Err.invalidTargetFormat

/-- One manifest asset record (main.py cmd_plan lines 142-149). -/
structure Asset where
  target : Chars
  filename : Chars
  sha256 : Chars
  url : Chars
deriving DecidableEq

/-- The release manifest aggregate (main.py cmd_plan lines 163-168). -/
structure Manifest where
  tag : Chars
  version : Chars
  name : Chars
  assets : List Asset
deriving DecidableEq

/-- Python truthiness of args.repo / GITHUB_REPOSITORY: an unset or empty
environment value is rejected (main.py get_repo_from_env, line 434). -/
def resolveEnvRepo (env : Option Chars) : Except Err Chars :=
  match env with
  | some r => if r.isEmpty then Except.error Err.repoRequired else Except.ok r
  | none => Except.error Err.repoRequired

/-- args.repo or get_repo_from_env(): an empty --repo value is falsy in
Python and falls through to the environment (main.py lines 188, 455). -/
def resolveRepo (cli env : Option Chars) : Except Err Chars :=
  match cli with
  | some r => if r.isEmpty then resolveEnvRepo env else Except.ok r
  | none => resolveEnvRepo env

/-- Python truthiness of an optional string option: None and "" are falsy. -/
def truthy (o : Option Chars) : Option Chars :=
  match o with
  | some l => if l.isEmpty then none else some l
  | none => none

/-! ## Publisher: cmd_github (main.py lines 442-505)

External effects of the publisher, in program order.  The constructor
tempNotesDelete models removal of the rendered release-notes temporary file;
the source creates that file with delete=False and contains no later unlink
of it, so cmd_github never emits this constructor. -/

inductive GhEffect where
  | tempNotesCreate
  | createRelease (tag : Chars) (draft : Bool) (title : Chars) (withNotes : Bool)
  | tempNotesDelete
  | upload (filename : Chars)
deriving DecidableEq

/-- The loop of main.py lines 450-453: first asset with a falsy sha256 wins. -/
def checkSha : List Asset → Option Err
  | [] => none
  | a :: rest => if a.sha256.isEmpty then some Err.assetMissingSha else checkSha rest

/-- main.py line 470: notes are rendered only when --release-notes is truthy
and the template file exists. -/
def notesProvided (rn : Option Chars) (notesFileExists : Chars → Bool) : Bool :=
  match rn with
  | some p => !p.isEmpty && notesFileExists p
  | none => false

/-- Release creation (main.py lines 466-477): the command gets --draft only
when args.draft is set; the title is the tag; when notes are rendered a
temporary notes file is created first (and never deleted afterwards). -/
def createEffects (tag : Chars) (draft : Bool) (rn : Option Chars)
    (notesFileExists : Chars → Bool) : List GhEffect :=
  if notesProvided rn notesFileExists then
    [GhEffect.tempNotesCreate, GhEffect.createRelease tag draft tag true]
  else
    [GhEffect.createRelease tag draft tag false]

/-- The upload loop of main.py lines 481-505: per asset, exit if the archive
file is absent, then query the current remote asset-name set and skip the
upload when the filename is already present. An upload adds the filename to
the remote set, which the later re-queries observe. -/
def uploadLoop (distFileExists : Chars → Bool) :
    List Asset → List Chars → List GhEffect × Option Err
  | [], _ => ([], none)
  | a :: rest, remote =>
    if distFileExists a.filename = false then ([], some Err.assetFileNotFound)
    else if a.filename ∈ remote then uploadLoop distFileExists rest remote
    else
      let p := uploadLoop distFileExists rest (a.filename :: remote)
      (GhEffect.upload a.filename :: p.1, p.2)

structure GithubArgs where
  tag : Chars
  name : Chars
  repo : Option Chars
  release_notes : Option Chars
  draft : Bool

/-- main.py cmd_github (lines 442-505).  The manifest is the parsed content of
dist/feza_manifest.json (read_manifest success assumed; a missing manifest
also exits, before any effect).  releaseExists is the outcome of the
gh release view probe; remoteAssets is the remote asset-name set at entry;
distFileExists tests archive presence in the dist directory.  Returns the
effect trace performed and the terminating error, if any. -/
def cmd_github (args : GithubArgs) (envRepo : Option Chars) (manifest : Manifest)
    (releaseExists : Bool) (notesFileExists : Chars → Bool)
    (distFileExists : Chars → Bool) (remoteAssets : List Chars) :
    List GhEffect × Option Err :=
  match validate_tag args.tag with
  | Except.error e => ([], some e)
  | Except.ok (tag, _version) =>
    if manifest.tag = tag then
      match checkSha manifest.assets with
      | some e => ([], some e)
      | none =>
        match resolveRepo args.repo envRepo with
        | Except.error e => ([], some e)
        | Except.ok _repo =>
          let cEffs :=
            if releaseExists then []
            else createEffects tag args.draft args.release_notes notesFileExists
          let p := uploadLoop distFileExists manifest.assets remoteAssets
          (cEffs ++ p.1, p.2)
    else ([], some Err.tagMismatch)

/-- Filenames of the uploads in an effect trace, in order. -/
def uploadNames (effs : List GhEffect) : List Chars :=
  effs.filterMap (fun e =>
    match e with
    | GhEffect.upload f => some f
    | _ => none)

/-! ## Planner: cmd_plan (main.py lines 131-173) -/

/-- main.py line 18. -/
def DEFAULT_TARGETS : List Chars :=
  ["macos-arm64".data, "macos-amd64".data, "linux-amd64".data]

/-- Abstract content of a parsed pyproject.toml: the two tables that
detect_python_entry_point consults, as association lists. -/
structure PyProject where
  scripts : List (Chars × Chars)
  consoleScripts : List (Chars × Chars)

def lookupKey (k : Chars) : List (Chars × Chars) → Option Chars
  | [] => none
  | kv :: rest => if kv.1 = k then some kv.2 else lookupKey k rest

/-- Python split(":", 1): the part before the first separator, and all of the
rest after it. -/
def splitFirst (sep : Char) : Chars → Chars × Chars
  | [] => ([], [])
  | c :: rest =>
    if c = sep then ([], rest)
    else
      let p := splitFirst sep rest
      (c :: p.1, p.2)

/-- Entry value parsing of main.py lines 297-304: a "module:function" value is
split at the first colon, a bare module gets function "main". -/
def parseEntry (entry : Chars) : Chars × Chars :=
  if ':' ∈ entry then splitFirst ':' entry else (entry, "main".data)

/-- main.py detect_python_entry_point (lines 284-320).  The argument none
covers a missing or unparseable pyproject.toml (both return None in the
source); [project.scripts] is consulted before console_scripts. -/
def detect_python_entry_point (name : Chars) :
    Option PyProject → Option (Chars × Chars)
  | none => none
  | some pp =>
    match lookupKey name pp.scripts with
    | some entry => some (parseEntry entry)
    | none =>
      match lookupKey name pp.consoleScripts with
      | some entry => some (parseEntry entry)
      | none => none

/-- Target list resolution of main.py lines 136-137: a truthy --targets value
is split on commas, otherwise the default set; every part is stripped. -/
def parseTargets (arg : Option Chars) : List Chars :=
  let raw := match arg with
    | some s => if s.isEmpty then DEFAULT_TARGETS else splitSep ',' s
    | none => DEFAULT_TARGETS
  raw.map pystrip

/-- The asset loop of main.py lines 139-149: one empty asset per target, in
order; a malformed target aborts the run. -/
def buildAssets (name : Chars) : List Chars → Except Err (List Asset)
  | [] => Except.ok []
  | t :: ts =>
    match target_to_filename t name with
    | Except.error e => Except.error e
    | Except.ok fn =>
      match buildAssets name ts with
      | Except.error e => Except.error e
      | Except.ok rest => Except.ok (Asset.mk t fn [] [] :: rest)

inductive PlanEffect where
  | writeScript (path : Chars) (executable : Bool)
  | writeManifest (m : Manifest)
deriving DecidableEq

def scriptName : Chars := "create_python_binaries.sh".data

structure PlanArgs where
  tag : Chars
  name : Chars
  targets : Option Chars
  no_auto_python : Bool

/-- main.py cmd_plan (lines 131-173).  gitStatus: none means git status itself
failed (not a repository), some d gives dirtiness.  The generated helper
script (chmod 755 in the source) is written before the manifest. -/
def cmd_plan (args : PlanArgs) (gitStatus : Option Bool)
    (pyproject : Option PyProject) : List PlanEffect × Option Err :=
  match validate_tag args.tag with
  | Except.error e => ([], some e)
  | Except.ok (tag, version) =>
    match gitStatus with
    | none => ([], some Err.notGitRepo)
    | some dirty =>
      if dirty then ([], some Err.dirtyTree)
      else
        let targets := parseTargets args.targets
        match buildAssets args.name targets with
        | Except.error e => ([], some e)
        | Except.ok assets =>
          let sEffs :=
            if args.no_auto_python then []
            else
              match detect_python_entry_point args.name pyproject with
              | some _ => [PlanEffect.writeScript scriptName true]
              | none => []
          (sEffs ++ [PlanEffect.writeManifest (Manifest.mk tag version args.name assets)],
           none)

/-! ## Packager: cmd_build (main.py lines 176-281) -/

/-- The artifacts tree as the packager observes it: per-target directory
existence and the file names listed inside a target directory (is_file
entries, in iteration order). -/
structure BuildFS where
  dirExists : Chars → Bool
  filesIn : Chars → List Chars

/-- Binary discovery (main.py lines 249-253): the first listed file whose
name has the tool name as a prefix. -/
def findBinary (fs : BuildFS) (name target : Chars) : Option Chars :=
  (fs.filesIn target).find? (fun f => name.isPrefixOf f)

/-- The missing-binary probe of main.py lines 203-211: the target directory
exists and holds some file with the tool-name prefix. -/
def binaryExists (fs : BuildFS) (name target : Chars) : Bool :=
  fs.dirExists target && (fs.filesIn target).any (fun f => name.isPrefixOf f)

/-- True when the packaging loop would exit on this asset: missing artifacts
directory or no matching binary. -/
def assetMissing (fs : BuildFS) (name : Chars) (a : Asset) : Bool :=
  !fs.dirExists a.target || (findBinary fs name a.target).isNone

/-- Download URL template of main.py line 273. -/
def downloadUrl (repo tag filename : Chars) : Chars :=
  "https://github.com/".data ++ repo ++ "/releases/download/".data ++ tag
    ++ '/' :: filename

inductive BuildEffect where
  | runScript
  | writeArchive (filename : Chars)
  | writeManifest (m : Manifest)
deriving DecidableEq

/-- One iteration of the packaging loop (main.py lines 240-278): find the
binary, archive it, fill sha256 (of the archive bytes, abstracted by hash
applied to the found binary) and the download URL into the asset. -/
def processAsset (fs : BuildFS) (hash : Chars → Chars) (name tag repo : Chars)
    (a : Asset) : Except Err Asset :=
  if fs.dirExists a.target = false then Except.error Err.artifactsDirNotFound
  else
    match findBinary fs name a.target with
    | none => Except.error Err.binaryNotFound
    | some bin =>
      Except.ok { a with sha256 := hash bin, url := downloadUrl repo tag a.filename }

/-- The packaging loop over the selected assets: archives are written per
asset as the loop advances; the first failing asset aborts the loop. -/
def buildLoop (fs : BuildFS) (hash : Chars → Chars) (name tag repo : Chars) :
    List Asset → List BuildEffect × Except Err (List Asset)
  | [] => ([], Except.ok [])
  | a :: rest =>
    match processAsset fs hash name tag repo a with
    | Except.error e => ([], Except.error e)
    | Except.ok a2 =>
      let p := buildLoop fs hash name tag repo rest
      (BuildEffect.writeArchive a.filename :: p.1,
       match p.2 with
       | Except.ok l => Except.ok (a2 :: l)
       | Except.error e => Except.error e)

/-- Asset selection of main.py lines 190-195 (before the empty-filter check). -/
def selectAssets (tf : Option Chars) (assets : List Asset) : List Asset :=
  match tf with
  | none => assets
  | some t => assets.filter (fun a => a.target = t)

/-- Whether an asset is in scope for a --target filter value. -/
def selected (tf : Option Chars) (a : Asset) : Bool :=
  match tf with
  | none => true
  | some t => a.target = t

/-- Lines 240-281 of main.py: the packaging loop over the selected assets
followed by the single manifest write.  The written manifest carries the
in-place mutation of exactly the selected assets (the Python loop mutates the
asset dictionaries that manifest["assets"] shares). -/
def buildCore (fs2 : BuildFS) (pre : List BuildEffect) (hash : Chars → Chars)
    (manifest : Manifest) (tf : Option Chars) (tag repo : Chars) :
    List BuildEffect × Option Err :=
  let toProcess := selectAssets tf manifest.assets
  let p := buildLoop fs2 hash manifest.name tag repo toProcess
  match p.2 with
  | Except.error e => (pre ++ p.1, some e)
  | Except.ok _ =>
    let newAssets := manifest.assets.map (fun a =>
      if selected tf a then
        match processAsset fs2 hash manifest.name tag repo a with
        | Except.ok a2 => a2
        | Except.error _ => a
      else a)
    (pre ++ p.1 ++ [BuildEffect.writeManifest { manifest with assets := newAssets }],
     none)

/-- External circumstances of the auto-python step of cmd_build: the parsed
pyproject, whether create_python_binaries.sh exists, whether running it
succeeds, and the artifacts tree after a successful run of it. -/
structure AutoPyEnv where
  pyproject : Option PyProject
  scriptExists : Bool
  scriptOk : Bool
  fsAfter : BuildFS

/-- The auto-python step of main.py lines 197-238: when binaries are missing
for some selected target and both an entry point and the helper script are
present, the script runs (a failing run exits); otherwise the artifacts tree
is untouched. -/
def autoPhase (noAuto : Bool) (fs : BuildFS) (auto : AutoPyEnv) (name : Chars)
    (toProcess : List Asset) : BuildFS × List BuildEffect × Option Err :=
  if noAuto then (fs, [], none)
  else
    let missing := toProcess.filter (fun a => !binaryExists fs name a.target)
    if missing.isEmpty then (fs, [], none)
    else
      match detect_python_entry_point name auto.pyproject, auto.scriptExists with
      | some _, true =>
        if auto.scriptOk then (auto.fsAfter, [BuildEffect.runScript], none)
        else (fs, [BuildEffect.runScript], some Err.scriptFailed)
      | _, _ => (fs, [], none)

structure BuildArgs where
  tag : Chars
  name : Chars
  repo : Option Chars
  target : Option Chars
  no_auto_python : Bool

/-- main.py cmd_build (lines 176-281): validate the tag, cross-check the
manifest tag, resolve the repository, select assets (with the empty-selection
check for a truthy --target), run the auto-python step, then the packaging
loop with its single trailing manifest write.  Directory creations are not
modelled as effects. -/
def cmd_build (args : BuildArgs) (envRepo : Option Chars) (manifest : Manifest)
    (fs : BuildFS) (auto : AutoPyEnv) (hash : Chars → Chars) :
    List BuildEffect × Option Err :=
  match validate_tag args.tag with
  | Except.error e => ([], some e)
  | Except.ok (tag, _version) =>
    if manifest.tag = tag then
      match resolveRepo args.repo envRepo with
      | Except.error e => ([], some e)
      | Except.ok repo =>
        let tf := truthy args.target
        let toProcess := selectAssets tf manifest.assets
        if tf.isSome && toProcess.isEmpty then
          ([], some Err.targetNotFoundInManifest)
        else
          let ap := autoPhase args.no_auto_python fs auto manifest.name toProcess
          match ap.2.2 with
          | some e => (ap.2.1, some e)
          | none => buildCore ap.1 ap.2.1 hash manifest tf tag repo
    else ([], some Err.tagMismatch)

/-- Number of manifest writes in a packager effect trace. -/
def countWrites (effs : List BuildEffect) : Nat :=
  effs.countP (fun e =>
    match e with
    | BuildEffect.writeManifest _ => true
    | _ => false)

/-! ## Version Bumper: cmd_bump (main.py lines 371-431) -/

inductive BumpEffect where
  | updatePyproject (v : Chars)
  | gitAdd
  | gitCommit
  | gitPush
deriving DecidableEq

structure BumpArgs where
  version : Option Chars
  commit : Bool
  push : Bool

/-- main.py cmd_bump (lines 371-431).  currentVersion: the project version of
pyproject.toml (none when missing or unreadable).  stdin models the
interactive prompt answer.  fieldFound: whether any rewrite strategy of
update_version_in_pyproject locates the version field.  addOk, commitOk,
pushOk: exit status of the corresponding git subprocesses.  The commit block
runs when either --commit or --push was given; the push-requires-commit check
only happens afterwards, inside the push block. -/
def cmd_bump (args : BumpArgs) (currentVersion : Option Chars) (stdin : Chars)
    (fieldFound addOk commitOk pushOk : Bool) : List BumpEffect × Option Err :=
  match currentVersion with
  | none => ([], some Err.versionNotFound)
  | some cur =>
    let newv : Except Err Chars :=
      match args.version with
      | some v => validate_version v
      | none =>
        let s := pystrip stdin
        if s.isEmpty then Except.error Err.versionRequired else validate_version s
    match newv with
    | Except.error e => ([], some e)
    | Except.ok v =>
      if v = cur then ([], some Err.versionUnchanged)
      else if fieldFound = false then ([], some Err.versionFieldNotFound)
      else
        let e0 := [BumpEffect.updatePyproject v]
        if args.commit || args.push then
          if addOk = false then (e0, some Err.stageFailed)
          else if commitOk = false then
            (e0 ++ [BumpEffect.gitAdd], some Err.commitFailed)
          else
            let e1 := e0 ++ [BumpEffect.gitAdd, BumpEffect.gitCommit]
            if args.push then
              if args.commit = false then (e1, some Err.pushRequiresCommit)
              else if pushOk = false then (e1, some Err.pushFailed)
              else (e1 ++ [BumpEffect.gitPush], none)
            else (e1, none)
        else (e0, none)

/-! ## Lemmas: the tag/version pattern matcher -/

def headNotDigit : Chars → Prop
  | [] => True
  | c :: _ => isPyDigit c = false

lemma takeDigits_of_append (d r : Chars) (hd : ∀ c ∈ d, isPyDigit c = true)
    (hr : headNotDigit r) : takeDigits (d ++ r) = (d, r) := by
  induction d with
  | nil =>
    cases r with
    | nil => rfl
    | cons c cs =>
      have hr2 : isPyDigit c = false := hr
      simp [takeDigits, hr2]
  | cons c cs ih =>
    have hc : isPyDigit c = true := hd c (List.mem_cons_self c cs)
    have ih2 := ih (fun x hx => hd x (List.mem_cons_of_mem c hx))
    simp [takeDigits, hc, ih2]

lemma takeDigits_sound (l : Chars) :
    l = (takeDigits l).1 ++ (takeDigits l).2 ∧
    (∀ c ∈ (takeDigits l).1, isPyDigit c = true) ∧
    headNotDigit (takeDigits l).2 := by
  induction l with
  | nil => exact ⟨rfl, by simp [takeDigits], by simp [takeDigits, headNotDigit]⟩
  | cons c cs ih =>
    obtain ⟨ih1, ih2, ih3⟩ := ih
    by_cases hc : isPyDigit c = true
    · have he : takeDigits (c :: cs) = (c :: (takeDigits cs).1, (takeDigits cs).2) := by
        simp [takeDigits, hc]
      rw [he]
      refine ⟨?_, ?_, ih3⟩
      · simpa using ih1
      · intro x hx
        rcases List.mem_cons.1 hx with h | h
        · exact h ▸ hc
        · exact ih2 x h
    · have hc2 : isPyDigit c = false := by
        cases e : isPyDigit c
        · rfl
        · exact absurd e hc
      have he : takeDigits (c :: cs) = ([], c :: cs) := by
        simp [takeDigits, hc2]
      rw [he]
      exact ⟨by simp, by simp, hc2⟩

lemma expectDot_some (r r2 : Chars) : expectDot r = some r2 ↔ r = '.' :: r2 := by
  cases r with
  | nil => simp [expectDot]
  | cons c cs =>
    by_cases hc : c = '.'
    · subst hc
      simp [expectDot]
    · simp [expectDot, hc, List.cons_eq_cons]

lemma dollarEnd_iff (l : Chars) : dollarEnd l = true ↔ (l = [] ∨ l = ['\n']) := by
  simp [dollarEnd, List.isEmpty_iff]

/-- The language of the source pattern \d+\.\d+\.\d+$ : three dotted nonempty
runs of Unicode decimal digits, optionally followed by one final newline. -/
def numsShapePy (l : Chars) : Prop :=
  ∃ d1 d2 d3 nl : Chars,
    l = d1 ++ '.' :: (d2 ++ '.' :: (d3 ++ nl)) ∧
    d1 ≠ [] ∧ d2 ≠ [] ∧ d3 ≠ [] ∧
    (∀ c ∈ d1, isPyDigit c = true) ∧ (∀ c ∈ d2, isPyDigit c = true) ∧
    (∀ c ∈ d3, isPyDigit c = true) ∧ (nl = [] ∨ nl = ['\n'])

lemma matchNums_iff (l : Chars) : matchNums l = true ↔ numsShapePy l := by
  constructor
  · intro h
    unfold matchNums at h
    split at h
    · exact absurd h (by simp)
    · rename_i h1
      split at h
      · exact absurd h (by simp)
      · rename_i r2 heq1
        split at h
        · exact absurd h (by simp)
        · rename_i h2
          split at h
          · exact absurd h (by simp)
          · rename_i r4 heq2
            split at h
            · exact absurd h (by simp)
            · rename_i h3
              obtain ⟨hl1, hld, _⟩ := takeDigits_sound l
              obtain ⟨hr1, hrd, _⟩ := takeDigits_sound r2
              obtain ⟨hs1, hsd, _⟩ := takeDigits_sound r4
              have e1 : (takeDigits l).2 = '.' :: r2 := (expectDot_some _ _).1 heq1
              have e2 : (takeDigits r2).2 = '.' :: r4 := (expectDot_some _ _).1 heq2
              refine ⟨(takeDigits l).1, (takeDigits r2).1, (takeDigits r4).1,
                (takeDigits r4).2, ?_, ?_, ?_, ?_, hld, hrd, hsd,
                (dollarEnd_iff _).1 h⟩
              · conv_lhs => rw [hl1, e1, hr1, e2, hs1]
              · simpa using h1
              · simpa using h2
              · simpa using h3
  · rintro ⟨d1, d2, d3, nl, rfl, h1, h2, h3, hd1, hd2, hd3, hnl⟩
    have hnlh : headNotDigit nl := by
      rcases hnl with rfl | rfl
      · trivial
      · exact (by decide : isPyDigit '\n' = false)
    have hde : dollarEnd nl = true := by
      rcases hnl with rfl | rfl
      · decide
      · decide
    have t1 : takeDigits (d1 ++ '.' :: (d2 ++ '.' :: (d3 ++ nl)))
        = (d1, '.' :: (d2 ++ '.' :: (d3 ++ nl))) :=
      takeDigits_of_append _ _ hd1 (by exact (by decide : isPyDigit '.' = false))
    have t2 : takeDigits (d2 ++ '.' :: (d3 ++ nl)) = (d2, '.' :: (d3 ++ nl)) :=
      takeDigits_of_append _ _ hd2 (by exact (by decide : isPyDigit '.' = false))
    have t3 : takeDigits (d3 ++ nl) = (d3, nl) :=
      takeDigits_of_append _ _ hd3 hnlh
    unfold matchNums
    rw [t1]
    simp [expectDot, t2, t3, h1, h2, h3, hde]

/-- The language of the full validate_tag regex ^v\d+\.\d+\.\d+$ under
Python semantics. -/
def isTagShapePy (l : Chars) : Prop :=
  ∃ rest, l = 'v' :: rest ∧ numsShapePy rest

lemma matchesTagPattern_iff (l : Chars) :
    matchesTagPattern l = true ↔ isTagShapePy l := by
  cases l with
  | nil => simp [matchesTagPattern, isTagShapePy]
  | cons c rest =>
    by_cases hc : c = 'v'
    · subst hc
      simp [matchesTagPattern, isTagShapePy, matchNums_iff]
    · simp only [matchesTagPattern, if_neg hc]
      constructor
      · intro h
        exact absurd h (by simp)
      · rintro ⟨rest2, heq, -⟩
        exact absurd (List.cons_eq_cons.1 heq).1 hc

lemma dropWhile_v_of_numsShapePy (rest : Chars) (h : numsShapePy rest) :
    List.dropWhile (fun c => c = 'v') ('v' :: rest) = rest := by
  obtain ⟨d1, d2, d3, nl, rfl, h1, _, _, hd1, _, _, _⟩ := h
  cases d1 with
  | nil => exact absurd rfl h1
  | cons c cs =>
    have hc : isPyDigit c = true := hd1 c (List.mem_cons_self c cs)
    have hcv : ¬(c = 'v') := by
      intro e
      rw [e] at hc
      exact absurd hc (by decide)
    simp [List.dropWhile, hcv]

/-- The pattern language as claim C5 reads it (spec-side definition, stated
from the claim words, not from the source): v<major>.<minor>.<patch> with
nonempty runs of ASCII decimal digits and nothing after the patch run. -/
def claimNumsShape (l : Chars) : Prop :=
  ∃ d1 d2 d3 : Chars,
    l = d1 ++ '.' :: (d2 ++ '.' :: d3) ∧
    d1 ≠ [] ∧ d2 ≠ [] ∧ d3 ≠ [] ∧
    (∀ c ∈ d1, c.isDigit = true) ∧ (∀ c ∈ d2, c.isDigit = true) ∧
    (∀ c ∈ d3, c.isDigit = true)

def claimTagShape (l : Chars) : Prop :=
  ∃ rest, l = 'v' :: rest ∧ claimNumsShape rest

lemma isPyDigit_of_isDigit (c : Char) (h : c.isDigit = true) :
    isPyDigit c = true := by
  simp [isPyDigit, h]

lemma numsShapePy_of_claimNumsShape (l : Chars) (h : claimNumsShape l) :
    numsShapePy l := by
  obtain ⟨d1, d2, d3, rfl, h1, h2, h3, hd1, hd2, hd3⟩ := h
  exact ⟨d1, d2, d3, [], by simp, h1, h2, h3,
    fun c hc => isPyDigit_of_isDigit c (hd1 c hc),
    fun c hc => isPyDigit_of_isDigit c (hd2 c hc),
    fun c hc => isPyDigit_of_isDigit c (hd3 c hc), Or.inl rfl⟩

/-- The tag v1.2.3 followed by one newline character. -/
def nlTag : Chars := ['v', '1', '.', '2', '.', '3', '\n']

lemma not_claimTagShape_nlTag : ¬claimTagShape nlTag := by
  rintro ⟨rest, heq, d1, d2, d3, hdec, h1, h2, h3, hd1, hd2, hd3⟩
  have h := heq
  rw [show nlTag = 'v' :: ['1', '.', '2', '.', '3', '\n'] from rfl] at h
  have hrest : rest = ['1', '.', '2', '.', '3', '\n'] :=
    ((List.cons_eq_cons.1 h).2).symm
  rw [hrest] at hdec
  have hmem : '\n' ∈ d1 ++ '.' :: (d2 ++ '.' :: d3) := by
    rw [← hdec]
    decide
  rcases List.mem_append.1 hmem with hm1 | hm1
  · exact absurd (hd1 '\n' hm1) (by decide)
  · rcases List.mem_cons.1 hm1 with he | hm2
    · exact absurd he (by decide)
    · rcases List.mem_append.1 hm2 with hm3 | hm3
      · exact absurd (hd2 '\n' hm3) (by decide)
      · rcases List.mem_cons.1 hm3 with he | hm4
        · exact absurd he (by decide)
        · exact absurd (hd3 '\n' hm4) (by decide)

/-- C5 counterexample.  The source check is re.match(r"^v\d+\.\d+\.\d+$", tag)
and the Python anchor $ also matches just before one final newline: the
string v1.2.3 followed by a newline does not match v<major>.<minor>.<patch>,
yet validate_tag accepts it and returns the pair with the newline kept in
both components (lstrip removes only the leading v), falsifying the claimed
failure for every other input string. -/
theorem c5_counterexample :
    nlTag = "v1.2.3\n".data ∧
    ¬claimTagShape nlTag ∧
    validate_tag nlTag = Except.ok (nlTag, ['1', '.', '2', '.', '3', '\n']) := by
  refine ⟨by decide, not_claimTagShape_nlTag, by decide⟩

/-- C5 (amended).  For every string of the claimed shape
v<major>.<minor>.<patch> (ASCII digit runs), validate_tag returns the pair
of the tag and the tag without its leading v.  The accepted language is
however wider than the claim stated: exactly the strings of the shape
v<digits>.<digits>.<digits> over Unicode decimal digits, optionally followed
by one final newline, are accepted — still returning the pair of the tag
and the tag without its leading v, the newline kept — and every string
outside that wider language fails with the tag-format error. -/
theorem c5_validate_tag (tag : Chars) :
    (claimTagShape tag → validate_tag tag = Except.ok (tag, tag.drop 1)) ∧
    (isTagShapePy tag → validate_tag tag = Except.ok (tag, tag.drop 1)) ∧
    (¬isTagShapePy tag → validate_tag tag = Except.error Err.invalidTagFormat) := by
  have hpy : isTagShapePy tag → validate_tag tag = Except.ok (tag, tag.drop 1) := by
    intro h
    have hm : matchesTagPattern tag = true := (matchesTagPattern_iff tag).2 h
    obtain ⟨rest, rfl, hn⟩ := h
    unfold validate_tag
    rw [hm]
    simp only [if_true]
    rw [dropWhile_v_of_numsShapePy rest hn]
    simp
  refine ⟨?_, hpy, ?_⟩
  · intro h
    obtain ⟨rest, heq, hn⟩ := h
    exact hpy ⟨rest, heq, numsShapePy_of_claimNumsShape rest hn⟩
  · intro h
    have hm : matchesTagPattern tag = false := by
      cases e : matchesTagPattern tag
      · rfl
      · exact absurd ((matchesTagPattern_iff tag).1 e) h
    simp [validate_tag, hm]

/-- Witness for the amended C5: the ASCII tag v1.2.3, the trailing-newline
tag, the failing string vx, and an Arabic-Indic digit tag. -/
theorem c5_validate_tag_witness :
    claimTagShape "v1.2.3".data ∧
    validate_tag "v1.2.3".data = Except.ok ("v1.2.3".data, "v1.2.3".data.drop 1) ∧
    isTagShapePy nlTag ∧
    validate_tag nlTag = Except.ok (nlTag, nlTag.drop 1) ∧
    ¬isTagShapePy "vx".data ∧
    validate_tag "vx".data = Except.error Err.invalidTagFormat ∧
    validate_tag "v١.٢.٣".data = Except.ok ("v١.٢.٣".data, "١.٢.٣".data) := by
  have h1 : claimTagShape "v1.2.3".data :=
    ⟨"1.2.3".data, by decide,
      ⟨"1".data, "2".data, "3".data, by decide, by decide, by decide, by decide,
        by decide, by decide, by decide⟩⟩
  have h2 : isTagShapePy nlTag :=
    ⟨['1', '.', '2', '.', '3', '\n'], by decide,
      ⟨['1'], ['2'], ['3'], ['\n'], by decide, by decide, by decide, by decide,
        by decide, by decide, by decide, Or.inr rfl⟩⟩
  have h3 : ¬isTagShapePy "vx".data := by
    intro h
    exact absurd ((matchesTagPattern_iff "vx".data).2 h) (by decide)
  exact ⟨h1, (c5_validate_tag "v1.2.3".data).1 h1,
    h2, (c5_validate_tag nlTag).2.1 h2,
    h3, (c5_validate_tag "vx".data).2.2 h3,
    by decide⟩

/-- C6.  target_to_filename is a total function of the target and name: on a
target splitting into exactly two hyphen-separated parts it yields
<name>-<os>-<arch>.tar.gz with macos translated to darwin and every other
OS part passed through; any other split arity is rejected.  The two concrete
examples of the claim are included. -/
theorem c6_target_to_filename (target name : Chars) :
    (∀ os arch, splitSep '-' target = [os, arch] →
      target_to_filename target name =
        Except.ok (name ++ '-' :: ((if os = "macos".data then "darwin".data else os)
          ++ '-' :: (arch ++ ".tar.gz".data)))) ∧
    ((splitSep '-' target).length ≠ 2 →
      target_to_filename target name = Except.error Err.invalidTargetFormat) ∧
    target_to_filename "macos-arm64".data "foo".data
      = Except.ok "foo-darwin-arm64.tar.gz".data ∧
    target_to_filename "linux-amd64".data "foo".data
      = Except.ok "foo-linux-amd64.tar.gz".data := by
  refine ⟨?_, ?_, by decide, by decide⟩
  · intro os arch h
    unfold target_to_filename
    rw [h]
  · intro h
    unfold target_to_filename
    cases e : splitSep '-' target with
    | nil => rfl
    | cons a t1 =>
      cases t1 with
      | nil => rfl
      | cons b t2 =>
        cases t2 with
        | nil =>
          rw [e] at h
          simp at h
        | cons c t3 => rfl

/-- Witness for C6: both branches exercised at concrete targets. -/
theorem c6_target_to_filename_witness :
    splitSep '-' "macos-arm64".data = ["macos".data, "arm64".data] ∧
    target_to_filename "macos-arm64".data "foo".data
      = Except.ok ("foo".data ++ '-' ::
          ((if "macos".data = "macos".data then "darwin".data else "macos".data)
            ++ '-' :: ("arm64".data ++ ".tar.gz".data))) ∧
    (splitSep '-' "noarch".data).length ≠ 2 ∧
    target_to_filename "noarch".data "foo".data
      = Except.error Err.invalidTargetFormat := by
  have h1 : splitSep '-' "macos-arm64".data = ["macos".data, "arm64".data] := by decide
  have h2 : (splitSep '-' "noarch".data).length ≠ 2 := by decide
  exact ⟨h1, (c6_target_to_filename "macos-arm64".data "foo".data).1 _ _ h1, h2,
    (c6_target_to_filename "noarch".data "foo".data).2.1 h2⟩

/-! ## Lemmas: the publisher -/

lemma checkSha_some_of_empty (assets : List Asset)
    (h : ∃ a ∈ assets, a.sha256 = []) :
    checkSha assets = some Err.assetMissingSha := by
  induction assets with
  | nil =>
    obtain ⟨a, ha, -⟩ := h
    exact absurd ha (List.not_mem_nil a)
  | cons a rest ih =>
    obtain ⟨b, hb, hbe⟩ := h
    rcases List.mem_cons.1 hb with h1 | h1
    · have he : a.sha256.isEmpty = true := by
        rw [← h1, hbe]
        rfl
      simp [checkSha, he]
    · unfold checkSha
      by_cases he : a.sha256.isEmpty = true
      · simp [he]
      · simp [he, ih ⟨b, h1, hbe⟩]

lemma uploadNames_append (l1 l2 : List GhEffect) :
    uploadNames (l1 ++ l2) = uploadNames l1 ++ uploadNames l2 := by
  simp [uploadNames]

lemma uploadNames_createEffects (tag : Chars) (draft : Bool) (rn : Option Chars)
    (nex : Chars → Bool) : uploadNames (createEffects tag draft rn nex) = [] := by
  unfold createEffects
  by_cases h : notesProvided rn nex
  · simp [h, uploadNames]
  · simp [h, uploadNames]

lemma uploadLoop_spec (dex : Chars → Bool) (assets : List Asset) :
    ∀ remote : List Chars, (∀ a ∈ assets, dex a.filename = true) →
    (uploadLoop dex assets remote).2 = none ∧
    (∀ f, f ∈ uploadNames (uploadLoop dex assets remote).1 ↔
      (f ∈ assets.map Asset.filename ∧ f ∉ remote)) ∧
    (uploadNames (uploadLoop dex assets remote).1).Nodup := by
  induction assets with
  | nil =>
    intro remote _
    refine ⟨rfl, ?_, by simp [uploadLoop, uploadNames]⟩
    intro f
    simp [uploadLoop, uploadNames]
  | cons a rest ih =>
    intro remote hf
    have hfa : dex a.filename = true := hf a (List.mem_cons_self a rest)
    have hfr : ∀ x ∈ rest, dex x.filename = true :=
      fun x hx => hf x (List.mem_cons_of_mem a hx)
    by_cases hmem : a.filename ∈ remote
    · have he : uploadLoop dex (a :: rest) remote = uploadLoop dex rest remote := by
        simp [uploadLoop, hfa, hmem]
      obtain ⟨ih1, ih2, ih3⟩ := ih remote hfr
      rw [he]
      refine ⟨ih1, ?_, ih3⟩
      intro f
      rw [ih2 f]
      constructor
      · rintro ⟨h1, h2⟩
        exact ⟨by simp [h1], h2⟩
      · rintro ⟨h1, h2⟩
        rw [List.map_cons, List.mem_cons] at h1
        rcases h1 with h3 | h3
        · exact absurd (show f ∈ remote by rw [h3]; exact hmem) h2
        · exact ⟨h3, h2⟩
    · have he : uploadLoop dex (a :: rest) remote
          = (GhEffect.upload a.filename
              :: (uploadLoop dex rest (a.filename :: remote)).1,
             (uploadLoop dex rest (a.filename :: remote)).2) := by
        simp [uploadLoop, hfa, hmem]
      obtain ⟨ih1, ih2, ih3⟩ := ih (a.filename :: remote) hfr
      rw [he]
      have hns : uploadNames (GhEffect.upload a.filename
          :: (uploadLoop dex rest (a.filename :: remote)).1)
          = a.filename :: uploadNames (uploadLoop dex rest (a.filename :: remote)).1 := by
        simp [uploadNames]
      refine ⟨ih1, ?_, ?_⟩
      · intro f
        rw [hns, List.mem_cons, ih2 f]
        constructor
        · rintro (h1 | ⟨h2, h3⟩)
          · exact ⟨by simp [h1], h1 ▸ hmem⟩
          · refine ⟨by simp [h2], ?_⟩
            intro hc
            exact h3 (List.mem_cons_of_mem _ hc)
        · rintro ⟨h1, h2⟩
          by_cases hef : f = a.filename
          · exact Or.inl hef
          · right
            rw [List.map_cons, List.mem_cons] at h1
            rcases h1 with h3 | h3
            · exact absurd h3 hef
            · refine ⟨h3, ?_⟩
              intro hc
              rcases List.mem_cons.1 hc with h4 | h4
              · exact hef h4
              · exact h2 h4
      · rw [hns]
        refine List.nodup_cons.2 ⟨?_, ih3⟩
        intro hc
        have := (ih2 a.filename).1 hc
        exact this.2 (List.mem_cons_self _ _)

lemma uploadLoop_only_uploads (dex : Chars → Bool) (assets : List Asset) :
    ∀ remote, ∀ e ∈ (uploadLoop dex assets remote).1, ∃ f, e = GhEffect.upload f := by
  induction assets with
  | nil =>
    intro remote e he
    simp [uploadLoop] at he
  | cons a rest ih =>
    intro remote e he
    by_cases hfa : dex a.filename = true
    · by_cases hmem : a.filename ∈ remote
      · rw [show uploadLoop dex (a :: rest) remote = uploadLoop dex rest remote from by
          simp [uploadLoop, hfa, hmem]] at he
        exact ih remote e he
      · rw [show uploadLoop dex (a :: rest) remote
            = (GhEffect.upload a.filename
                :: (uploadLoop dex rest (a.filename :: remote)).1,
               (uploadLoop dex rest (a.filename :: remote)).2) from by
          simp [uploadLoop, hfa, hmem]] at he
        rcases List.mem_cons.1 he with h | h
        · exact ⟨a.filename, h⟩
        · exact ih _ e h
    · have hfa2 : dex a.filename = false := by
        cases hx : dex a.filename
        · rfl
        · exact absurd hx hfa
      rw [show uploadLoop dex (a :: rest) remote = ([], some Err.assetFileNotFound) from by
        simp [uploadLoop, hfa2]] at he
      simp at he

lemma cmd_github_eq (args : GithubArgs) (envRepo : Option Chars) (manifest : Manifest)
    (rex : Bool) (nex dex : Chars → Bool) (remote : List Chars)
    (htag : matchesTagPattern args.tag = true)
    (hm : manifest.tag = args.tag)
    (hsha : checkSha manifest.assets = none)
    (r : Chars) (hr : resolveRepo args.repo envRepo = Except.ok r) :
    cmd_github args envRepo manifest rex nex dex remote
      = ((if rex then [] else createEffects args.tag args.draft args.release_notes nex)
          ++ (uploadLoop dex manifest.assets remote).1,
         (uploadLoop dex manifest.assets remote).2) := by
  have hv : validate_tag args.tag
      = Except.ok (args.tag, args.tag.dropWhile (fun c => c = 'v')) := by
    unfold validate_tag
    rw [htag]
    simp
  cases rex
  · simp [cmd_github, hv, hm, hsha, hr]
  · simp [cmd_github, hv, hm, hsha, hr]

/-- C1 (amended).  The publisher validates only the sha256 field: for every
manifest in which some asset has an empty sha256, cmd_github exits with an
error having performed no effect at all (no release creation, no upload).
The url field is not part of this check. -/
theorem c1_publisher_rejects_missing_sha (args : GithubArgs) (envRepo : Option Chars)
    (manifest : Manifest) (rex : Bool) (nex dex : Chars → Bool) (remote : List Chars)
    (h : ∃ a ∈ manifest.assets, a.sha256 = []) :
    (cmd_github args envRepo manifest rex nex dex remote).1 = [] ∧
    (cmd_github args envRepo manifest rex nex dex remote).2.isSome := by
  unfold cmd_github
  split
  · exact ⟨rfl, rfl⟩
  · rename_i tg vr hv
    by_cases ht : manifest.tag = tg
    · rw [if_pos ht, checkSha_some_of_empty manifest.assets h]
      exact ⟨rfl, rfl⟩
    · rw [if_neg ht]
      exact ⟨rfl, rfl⟩

def c1Args : GithubArgs :=
  GithubArgs.mk "v1.0.0".data "foo".data (some "org/repo".data) none false

def c1Manifest : Manifest :=
  Manifest.mk "v1.0.0".data "1.0.0".data "foo".data
    [Asset.mk "linux-amd64".data "foo-linux-amd64.tar.gz".data "aa11".data []]

/-- C1 counterexample.  A manifest whose only asset has a non-empty sha256
but an empty url is not packaged in the sense of the claim, yet cmd_github
does not refuse: the run finishes without error and uploads the asset
(release existing, archive on disk, remote initially empty).  This falsifies
the claimed refusal for every manifest with a not-packaged asset. -/
theorem c1_counterexample :
    (∃ a ∈ c1Manifest.assets, a.sha256 = [] ∨ a.url = []) ∧
    cmd_github c1Args none c1Manifest true (fun _ => false) (fun _ => true) []
      = ([GhEffect.upload "foo-linux-amd64.tar.gz".data], none) := by
  constructor
  · exact ⟨Asset.mk "linux-amd64".data "foo-linux-amd64.tar.gz".data "aa11".data [],
      List.mem_cons_self _ _, Or.inr rfl⟩
  · decide

def c1wManifest : Manifest :=
  Manifest.mk "v1.0.0".data "1.0.0".data "foo".data
    [Asset.mk "linux-amd64".data "foo-linux-amd64.tar.gz".data [] []]

/-- Witness for the amended C1 at a manifest with an empty sha256. -/
theorem c1_publisher_rejects_missing_sha_witness :
    (∃ a ∈ c1wManifest.assets, a.sha256 = []) ∧
    (cmd_github c1Args none c1wManifest true (fun _ => false) (fun _ => true) []).1 = [] ∧
    (cmd_github c1Args none c1wManifest true (fun _ => false) (fun _ => true) []).2.isSome := by
  have h : ∃ a ∈ c1wManifest.assets, a.sha256 = [] :=
    ⟨Asset.mk "linux-amd64".data "foo-linux-amd64.tar.gz".data [] [],
      List.mem_cons_self _ _, rfl⟩
  obtain ⟨h1, h2⟩ := c1_publisher_rejects_missing_sha c1Args none c1wManifest true
    (fun _ => false) (fun _ => true) [] h
  exact ⟨h, h1, h2⟩

def c3Args : GithubArgs :=
  GithubArgs.mk "v1.0.0".data "foo".data (some "org/repo".data) none false

def c3Manifest : Manifest :=
  Manifest.mk "v1.0.0".data "1.0.0".data "foo".data
    [Asset.mk "linux-amd64".data "a.tar.gz".data "aa".data "u".data,
     Asset.mk "macos-arm64".data "b.tar.gz".data "bb".data "u".data]

/-- C3.  Under the publisher preconditions (valid tag, matching manifest tag,
all sha256 present, resolvable repository, all archive files on disk), the
run finishes without error and the set of uploaded filenames is exactly the
manifest filenames not present in the initial remote asset-name set; no
filename is uploaded twice (the pre-upload re-query skips names that became
present).  The concrete instance of the claim is included: with remote state
a.tar.gz and manifest assets a.tar.gz, b.tar.gz, exactly b.tar.gz is
uploaded. -/
theorem c3_upload_reconciliation (args : GithubArgs) (envRepo : Option Chars)
    (manifest : Manifest) (rex : Bool) (nex dex : Chars → Bool) (remote : List Chars)
    (htag : matchesTagPattern args.tag = true)
    (hm : manifest.tag = args.tag)
    (hsha : checkSha manifest.assets = none)
    (hrepo : ∃ r, resolveRepo args.repo envRepo = Except.ok r)
    (hfiles : ∀ a ∈ manifest.assets, dex a.filename = true) :
    (cmd_github args envRepo manifest rex nex dex remote).2 = none ∧
    (∀ f, f ∈ uploadNames (cmd_github args envRepo manifest rex nex dex remote).1 ↔
      (f ∈ manifest.assets.map Asset.filename ∧ f ∉ remote)) ∧
    (uploadNames (cmd_github args envRepo manifest rex nex dex remote).1).Nodup ∧
    uploadNames (cmd_github c3Args none c3Manifest true (fun _ => false)
      (fun _ => true) ["a.tar.gz".data]).1 = ["b.tar.gz".data] := by
  obtain ⟨r, hr⟩ := hrepo
  have hc := cmd_github_eq args envRepo manifest rex nex dex remote htag hm hsha r hr
  obtain ⟨hl1, hl2, hl3⟩ := uploadLoop_spec dex manifest.assets remote hfiles
  have hcn : uploadNames (if rex then []
      else createEffects args.tag args.draft args.release_notes nex) = [] := by
    cases rex
    · simp [uploadNames_createEffects]
    · simp [uploadNames]
  refine ⟨?_, ?_, ?_, by decide⟩
  · rw [hc]
    exact hl1
  · intro f
    rw [hc]
    simp only [uploadNames_append, hcn, List.nil_append]
    exact hl2 f
  · rw [hc]
    simp only [uploadNames_append, hcn, List.nil_append]
    exact hl3

/-- Witness for C3: the concrete retry scenario of the claim, with all
hypotheses discharged. -/
theorem c3_upload_reconciliation_witness :
    matchesTagPattern c3Args.tag = true ∧
    c3Manifest.tag = c3Args.tag ∧
    checkSha c3Manifest.assets = none ∧
    (∀ a ∈ c3Manifest.assets, (fun _ : Chars => true) a.filename = true) ∧
    (cmd_github c3Args none c3Manifest true (fun _ => false) (fun _ => true)
      ["a.tar.gz".data]).2 = none ∧
    uploadNames (cmd_github c3Args none c3Manifest true (fun _ => false)
      (fun _ => true) ["a.tar.gz".data]).1 = ["b.tar.gz".data] := by
  have h := c3_upload_reconciliation c3Args none c3Manifest true (fun _ => false)
    (fun _ => true) ["a.tar.gz".data] (by decide) (by decide) (by decide)
    ⟨"org/repo".data, by decide⟩ (by decide)
  exact ⟨by decide, by decide, by decide, by decide, h.1, h.2.2.2⟩

/-- True exactly on a release creation carrying the draft flag. -/
def isDraftCreation : GhEffect → Bool
  | GhEffect.createRelease _ d _ _ => d
  | _ => false

def c4Args : GithubArgs :=
  GithubArgs.mk "v1.0.0".data "foo".data (some "org/repo".data) none false

def c4Manifest : Manifest :=
  Manifest.mk "v1.0.0".data "1.0.0".data "foo".data
    [Asset.mk "linux-amd64".data "a.tar.gz".data "aa".data "u".data]

/-- C4 counterexample.  With no remote release present and --draft not
passed, cmd_github creates the release with the draft flag off (the gh
command gets --draft only when args.draft is set): the trace contains a
non-draft creation and no draft creation at all, falsifying the claimed
always-draft creation. -/
theorem c4_counterexample :
    cmd_github c4Args none c4Manifest false (fun _ => false) (fun _ => true) []
      = ([GhEffect.createRelease "v1.0.0".data false "v1.0.0".data false,
          GhEffect.upload "a.tar.gz".data], none) ∧
    (cmd_github c4Args none c4Manifest false (fun _ => false) (fun _ => true) []).1.all
      (fun e => !isDraftCreation e) = true := by
  constructor
  · decide
  · decide

/-- C4 (amended).  Under the publisher preconditions: when the remote
release exists, no creation effect occurs and the run proceeds directly to
the upload loop; when it does not exist, the run first performs exactly the
creation effects — a createRelease with title equal to the tag, draft flag
equal to --draft (published immediately otherwise), and the optional
rendered notes file — followed only by the uploads. -/
theorem c4_release_creation (args : GithubArgs) (envRepo : Option Chars)
    (manifest : Manifest) (rex : Bool) (nex dex : Chars → Bool) (remote : List Chars)
    (htag : matchesTagPattern args.tag = true)
    (hm : manifest.tag = args.tag)
    (hsha : checkSha manifest.assets = none)
    (hrepo : ∃ r, resolveRepo args.repo envRepo = Except.ok r) :
    (rex = true → ∀ e ∈ (cmd_github args envRepo manifest rex nex dex remote).1,
      ∃ f, e = GhEffect.upload f) ∧
    (rex = false →
      (cmd_github args envRepo manifest rex nex dex remote).1
        = createEffects args.tag args.draft args.release_notes nex
          ++ (uploadLoop dex manifest.assets remote).1 ∧
      GhEffect.createRelease args.tag args.draft args.tag
          (notesProvided args.release_notes nex)
        ∈ (cmd_github args envRepo manifest rex nex dex remote).1) := by
  obtain ⟨r, hr⟩ := hrepo
  have hc := cmd_github_eq args envRepo manifest rex nex dex remote htag hm hsha r hr
  constructor
  · intro hrex e he
    rw [hc, hrex] at he
    simp only [if_true, List.nil_append] at he
    exact uploadLoop_only_uploads dex manifest.assets remote e he
  · intro hrex
    rw [hc, hrex]
    refine ⟨by simp, ?_⟩
    simp only [Bool.false_eq_true, if_false]
    apply List.mem_append_left
    unfold createEffects
    by_cases hn : notesProvided args.release_notes nex = true
    · rw [hn]
      simp [hn]
    · have hn2 : notesProvided args.release_notes nex = false := by
        cases hx : notesProvided args.release_notes nex
        · rfl
        · exact absurd hx hn
      rw [hn2]
      simp [hn2]

/-- Witness for the amended C4: both the existing-release and the
absent-release branch at concrete inputs. -/
theorem c4_release_creation_witness :
    (∀ e ∈ (cmd_github c4Args none c4Manifest true (fun _ => false) (fun _ => true) []).1,
      ∃ f, e = GhEffect.upload f) ∧
    (cmd_github c4Args none c4Manifest false (fun _ => false) (fun _ => true) []).1
      = createEffects c4Args.tag c4Args.draft c4Args.release_notes (fun _ => false)
        ++ (uploadLoop (fun _ => true) c4Manifest.assets []).1 ∧
    GhEffect.createRelease c4Args.tag c4Args.draft c4Args.tag
        (notesProvided c4Args.release_notes (fun _ => false))
      ∈ (cmd_github c4Args none c4Manifest false (fun _ => false) (fun _ => true) []).1 := by
  have h1 := (c4_release_creation c4Args none c4Manifest true (fun _ => false)
    (fun _ => true) [] (by decide) (by decide) (by decide)
    ⟨"org/repo".data, by decide⟩).1 rfl
  have h2 := (c4_release_creation c4Args none c4Manifest false (fun _ => false)
    (fun _ => true) [] (by decide) (by decide) (by decide)
    ⟨"org/repo".data, by decide⟩).2 rfl
  exact ⟨h1, h2.1, h2.2⟩

def c7Args : GithubArgs :=
  GithubArgs.mk "v1.0.0".data "foo".data (some "org/repo".data)
    (some "notes.md".data) false

/-- C7 (code bug), evaluated at the failing input: publishing with a
release-notes template present and no existing remote release renders the
notes into a temporary file, but the trace holds no deletion of it — the
source opens the file with delete=False and never unlinks it — and the run
finishes without error, so the rendered notes file remains on disk after
cmd_github returns. -/
theorem c7_notes_file_not_deleted :
    GhEffect.tempNotesCreate
      ∈ (cmd_github c7Args none c4Manifest false (fun _ => true) (fun _ => true) []).1 ∧
    GhEffect.tempNotesDelete
      ∉ (cmd_github c7Args none c4Manifest false (fun _ => true) (fun _ => true) []).1 ∧
    (cmd_github c7Args none c4Manifest false (fun _ => true) (fun _ => true) []).2
      = none := by
  refine ⟨by decide, by decide, by decide⟩

/-! ## Lemmas: the version bumper -/

lemma cmd_bump_push_no_commit (args : BumpArgs) (cv : Option Chars) (stdin : Chars)
    (ff ao co po : Bool) (hp : args.push = true) (hc : args.commit = false) :
    BumpEffect.gitPush ∉ (cmd_bump args cv stdin ff ao co po).1 ∧
    (cmd_bump args cv stdin ff ao co po).2.isSome := by
  unfold cmd_bump
  rw [hp, hc]
  repeat' split
  all_goals try simp_all
  all_goals split
  all_goals try split
  all_goals simp_all

lemma cmd_bump_push_no_commit_trace (args : BumpArgs) (cur v stdin : Chars)
    (po : Bool) (hp : args.push = true) (hc : args.commit = false)
    (hv : args.version = some v) (hnum : matchNums v = true) (hne : ¬(v = cur)) :
    cmd_bump args (some cur) stdin true true true po
      = ([BumpEffect.updatePyproject v, BumpEffect.gitAdd, BumpEffect.gitCommit],
         some Err.pushRequiresCommit) := by
  unfold cmd_bump validate_version
  rw [hp, hc, hv]
  simp [hnum, hne]

/-- C8.  In every bump invocation with --push and without --commit, no push
to the remote happens and the invocation exits with an error; when the new
version is a valid version different from the current one (and the rewrite
and git stage/commit succeed), that error is exactly push-requires-commit. -/
theorem c8_push_requires_commit (args : BumpArgs) (cv : Option Chars) (stdin : Chars)
    (ff ao co po : Bool) (hp : args.push = true) (hc : args.commit = false) :
    BumpEffect.gitPush ∉ (cmd_bump args cv stdin ff ao co po).1 ∧
    (cmd_bump args cv stdin ff ao co po).2.isSome ∧
    (∀ v cur, args.version = some v → cv = some cur → matchNums v = true →
      v ≠ cur → ff = true → ao = true → co = true →
      (cmd_bump args cv stdin ff ao co po).2 = some Err.pushRequiresCommit) := by
  obtain ⟨h1, h2⟩ := cmd_bump_push_no_commit args cv stdin ff ao co po hp hc
  refine ⟨h1, h2, ?_⟩
  intro v cur hv hcv hnum hne hff hao hco
  subst hcv hff hao hco
  rw [cmd_bump_push_no_commit_trace args cur v stdin po hp hc hv hnum hne]

/-- Witness for C8 at bump --version 0.2.0 --push (current version 0.1.0). -/
theorem c8_push_requires_commit_witness :
    BumpEffect.gitPush ∉ (cmd_bump (BumpArgs.mk (some "0.2.0".data) false true)
      (some "0.1.0".data) [] true true true true).1 ∧
    (cmd_bump (BumpArgs.mk (some "0.2.0".data) false true)
      (some "0.1.0".data) [] true true true true).2.isSome ∧
    (cmd_bump (BumpArgs.mk (some "0.2.0".data) false true)
      (some "0.1.0".data) [] true true true true).2
      = some Err.pushRequiresCommit := by
  have h := c8_push_requires_commit (BumpArgs.mk (some "0.2.0".data) false true)
    (some "0.1.0".data) [] true true true true rfl rfl
  exact ⟨h.1, h.2.1,
    h.2.2 "0.2.0".data "0.1.0".data rfl rfl (by decide) (by decide) rfl rfl rfl⟩

/-- C10.  The push-requires-commit failure is not atomic: with --push and
without --commit, a valid new version different from the current one, and
normal git behaviour, the invocation first rewrites pyproject.toml, stages
it and commits it — the commit block runs because either flag triggers it —
and only then exits with the push-requires-commit error; no push happens
and the file rewrite and commit remain in the trace. -/
theorem c10_bump_commit_precedes_push_check (args : BumpArgs) (cur v stdin : Chars)
    (po : Bool) (hp : args.push = true) (hc : args.commit = false)
    (hv : args.version = some v) (hnum : matchNums v = true) (hne : v ≠ cur) :
    cmd_bump args (some cur) stdin true true true po
      = ([BumpEffect.updatePyproject v, BumpEffect.gitAdd, BumpEffect.gitCommit],
         some Err.pushRequiresCommit) :=
  cmd_bump_push_no_commit_trace args cur v stdin po hp hc hv hnum hne

/-- Witness for C10 at bump --version 0.2.0 --push (current version 0.1.0). -/
theorem c10_bump_commit_precedes_push_check_witness :
    (BumpArgs.mk (some "0.2.0".data) false true).push = true ∧
    (BumpArgs.mk (some "0.2.0".data) false true).commit = false ∧
    cmd_bump (BumpArgs.mk (some "0.2.0".data) false true) (some "0.1.0".data) []
        true true true true
      = ([BumpEffect.updatePyproject "0.2.0".data, BumpEffect.gitAdd,
          BumpEffect.gitCommit], some Err.pushRequiresCommit) :=
  ⟨rfl, rfl, c10_bump_commit_precedes_push_check
    (BumpArgs.mk (some "0.2.0".data) false true) "0.1.0".data "0.2.0".data [] true
    rfl rfl rfl (by decide) (by decide)⟩

/-! ## Lemmas: the packager -/

lemma buildLoop_no_write (fs : BuildFS) (hash : Chars → Chars) (name tag repo : Chars)
    (assets : List Asset) :
    ∀ e ∈ (buildLoop fs hash name tag repo assets).1,
      ∃ fn, e = BuildEffect.writeArchive fn := by
  induction assets with
  | nil =>
    intro e he
    simp [buildLoop] at he
  | cons a rest ih =>
    intro e he
    unfold buildLoop at he
    cases hp : processAsset fs hash name tag repo a with
    | error er =>
      rw [hp] at he
      simp at he
    | ok a2 =>
      rw [hp] at he
      simp only [List.mem_cons] at he
      rcases he with h | h
      · exact ⟨a.filename, h⟩
      · exact ih e h

lemma countWrites_buildLoop (fs : BuildFS) (hash : Chars → Chars) (name tag repo : Chars)
    (assets : List Asset) :
    countWrites (buildLoop fs hash name tag repo assets).1 = 0 := by
  rw [countWrites, List.countP_eq_zero]
  intro e he
  obtain ⟨fn, rfl⟩ := buildLoop_no_write fs hash name tag repo assets e he
  simp

lemma countWrites_append (l1 l2 : List BuildEffect) :
    countWrites (l1 ++ l2) = countWrites l1 + countWrites l2 := by
  simp [countWrites, List.countP_append]

lemma buildCore_writes (fs2 : BuildFS) (pre : List BuildEffect) (hash : Chars → Chars)
    (manifest : Manifest) (tf : Option Chars) (tag repo : Chars)
    (hpre : countWrites pre = 0) :
    ((buildCore fs2 pre hash manifest tf tag repo).2.isSome →
      countWrites (buildCore fs2 pre hash manifest tf tag repo).1 = 0) ∧
    ((buildCore fs2 pre hash manifest tf tag repo).2 = none →
      countWrites (buildCore fs2 pre hash manifest tf tag repo).1 = 1 ∧
      ∃ m, (buildCore fs2 pre hash manifest tf tag repo).1.getLast?
        = some (BuildEffect.writeManifest m)) := by
  unfold buildCore
  dsimp only
  split
  · constructor
    · intro _
      rw [countWrites_append, hpre, countWrites_buildLoop]
    · intro h
      exact absurd h (by simp)
  · constructor
    · intro h
      exact absurd h (by simp)
    · intro _
      constructor
      · rw [countWrites_append, countWrites_append, hpre, countWrites_buildLoop]
        rfl
      · exact ⟨_, List.getLast?_concat _⟩

lemma processAsset_error_iff (fs : BuildFS) (hash : Chars → Chars)
    (name tag repo : Chars) (a : Asset) :
    (∃ e, processAsset fs hash name tag repo a = Except.error e)
      ↔ assetMissing fs name a = true := by
  unfold processAsset assetMissing
  by_cases hd : fs.dirExists a.target = false
  · simp [hd]
  · have hd2 : fs.dirExists a.target = true := by
      cases hx : fs.dirExists a.target
      · exact absurd hx hd
      · rfl
    cases hf : findBinary fs name a.target with
    | none => simp [hd2, hf]
    | some bin => simp [hd2, hf]

lemma buildLoop_error_of_missing (fs : BuildFS) (hash : Chars → Chars)
    (name tag repo : Chars) (assets : List Asset)
    (h : ∃ a ∈ assets, assetMissing fs name a = true) :
    ∃ e, (buildLoop fs hash name tag repo assets).2 = Except.error e := by
  induction assets with
  | nil =>
    obtain ⟨a, ha, -⟩ := h
    exact absurd ha (List.not_mem_nil a)
  | cons a rest ih =>
    obtain ⟨b, hb, hbm⟩ := h
    unfold buildLoop
    cases hp : processAsset fs hash name tag repo a with
    | error e => exact ⟨e, by simp⟩
    | ok a2 =>
      rcases List.mem_cons.1 hb with h1 | h1
      · exfalso
        obtain ⟨e, he⟩ := (processAsset_error_iff fs hash name tag repo a).2
          (by rw [← h1]; exact hbm)
        rw [hp] at he
        exact Except.noConfusion he
      · obtain ⟨e, he⟩ := ih ⟨b, h1, hbm⟩
        refine ⟨e, ?_⟩
        simp only []
        rw [he]

lemma countWrites_autoPhase (noAuto : Bool) (fs : BuildFS) (auto : AutoPyEnv)
    (name : Chars) (toProcess : List Asset) :
    countWrites (autoPhase noAuto fs auto name toProcess).2.1 = 0 := by
  unfold autoPhase
  dsimp only
  repeat' split
  all_goals rfl

lemma cmd_build_writes (args : BuildArgs) (envRepo : Option Chars) (manifest : Manifest)
    (fs : BuildFS) (auto : AutoPyEnv) (hash : Chars → Chars) :
    ((cmd_build args envRepo manifest fs auto hash).2.isSome →
      countWrites (cmd_build args envRepo manifest fs auto hash).1 = 0) ∧
    ((cmd_build args envRepo manifest fs auto hash).2 = none →
      countWrites (cmd_build args envRepo manifest fs auto hash).1 = 1 ∧
      ∃ m, (cmd_build args envRepo manifest fs auto hash).1.getLast?
        = some (BuildEffect.writeManifest m)) := by
  unfold cmd_build
  dsimp only
  repeat' split
  all_goals first
    | exact ⟨fun _ => rfl, fun h => absurd h (by simp)⟩
    | exact ⟨fun _ => countWrites_autoPhase _ _ _ _ _, fun h => absurd h (by simp)⟩
    | exact buildCore_writes _ _ _ _ _ _ _ (countWrites_autoPhase _ _ _ _ _)

/-- C2.  The manifest write of the packager is all-or-nothing per
invocation: whenever cmd_build exits with an error, zero manifest writes
occur in its trace (so no sha256 or url of that invocation is persisted);
whenever it succeeds, the manifest is written exactly once and as the very
last effect, after all selected assets were processed.  Moreover the
packaging loop itself (buildCore, main.py lines 240-281) errors out and
leaves the manifest unwritten as soon as any selected asset has a missing
artifacts directory or binary. -/
theorem c2_manifest_write_all_or_nothing (args : BuildArgs) (envRepo : Option Chars)
    (manifest : Manifest) (fs : BuildFS) (auto : AutoPyEnv) (hash : Chars → Chars) :
    ((cmd_build args envRepo manifest fs auto hash).2.isSome →
      countWrites (cmd_build args envRepo manifest fs auto hash).1 = 0) ∧
    ((cmd_build args envRepo manifest fs auto hash).2 = none →
      countWrites (cmd_build args envRepo manifest fs auto hash).1 = 1 ∧
      ∃ m, (cmd_build args envRepo manifest fs auto hash).1.getLast?
        = some (BuildEffect.writeManifest m)) ∧
    (∀ (fs2 : BuildFS) (pre : List BuildEffect) (tag repo : Chars) (tf : Option Chars),
      countWrites pre = 0 →
      (∃ a ∈ selectAssets tf manifest.assets, assetMissing fs2 manifest.name a = true) →
      (buildCore fs2 pre hash manifest tf tag repo).2.isSome ∧
      countWrites (buildCore fs2 pre hash manifest tf tag repo).1 = 0) := by
  obtain ⟨h1, h2⟩ := cmd_build_writes args envRepo manifest fs auto hash
  refine ⟨h1, h2, ?_⟩
  intro fs2 pre tag repo tf hpre hmiss
  obtain ⟨e, he⟩ := buildLoop_error_of_missing fs2 hash manifest.name tag repo
    (selectAssets tf manifest.assets) hmiss
  have hcore : buildCore fs2 pre hash manifest tf tag repo
      = (pre ++ (buildLoop fs2 hash manifest.name tag repo
          (selectAssets tf manifest.assets)).1, some e) := by
    unfold buildCore
    dsimp only
    rw [he]
  rw [hcore]
  exact ⟨rfl, by rw [countWrites_append, hpre, countWrites_buildLoop]⟩

def c2Args : BuildArgs :=
  BuildArgs.mk "v1.0.0".data "foo".data (some "org/repo".data) none true

def c2Manifest : Manifest :=
  Manifest.mk "v1.0.0".data "1.0.0".data "foo".data
    [Asset.mk "linux-amd64".data "foo-linux-amd64.tar.gz".data [] []]

def c2FS : BuildFS := BuildFS.mk (fun _ => false) (fun _ => [])

def c2FSok : BuildFS := BuildFS.mk (fun _ => true) (fun _ => ["foobin".data])

def c2Auto : AutoPyEnv := AutoPyEnv.mk none false false c2FS

/-- Witness for C2: a failing build (missing artifacts directory) persists
nothing, a succeeding build persists the manifest exactly once, and the
packaging loop errors on the missing asset. -/
theorem c2_manifest_write_all_or_nothing_witness :
    (cmd_build c2Args none c2Manifest c2FS c2Auto (fun _ => "hh".data)).2.isSome ∧
    countWrites (cmd_build c2Args none c2Manifest c2FS c2Auto (fun _ => "hh".data)).1 = 0 ∧
    (cmd_build c2Args none c2Manifest c2FSok c2Auto (fun _ => "hh".data)).2 = none ∧
    countWrites (cmd_build c2Args none c2Manifest c2FSok c2Auto (fun _ => "hh".data)).1 = 1 ∧
    (∃ a ∈ selectAssets none c2Manifest.assets,
      assetMissing c2FS c2Manifest.name a = true) ∧
    (buildCore c2FS [] (fun _ => "hh".data) c2Manifest none "v1.0.0".data
      "org/repo".data).2.isSome := by
  have h := c2_manifest_write_all_or_nothing c2Args none c2Manifest c2FS c2Auto
    (fun _ => "hh".data)
  have hok := c2_manifest_write_all_or_nothing c2Args none c2Manifest c2FSok c2Auto
    (fun _ => "hh".data)
  have hmiss : ∃ a ∈ selectAssets none c2Manifest.assets,
      assetMissing c2FS c2Manifest.name a = true := by decide
  refine ⟨by decide, h.1 (by decide), by decide, (hok.2.1 (by decide)).1, hmiss,
    (h.2.2 c2FS [] "v1.0.0".data "org/repo".data none rfl hmiss).1⟩

/-! ## Lemmas: the planner and the auto-python step -/

lemma cmd_plan_ok_inv (args : PlanArgs) (gitStatus : Option Bool)
    (pyproject : Option PyProject)
    (hok : (cmd_plan args gitStatus pyproject).2 = none) :
    ∃ tg vr assets, validate_tag args.tag = Except.ok (tg, vr) ∧
      gitStatus = some false ∧
      buildAssets args.name (parseTargets args.targets) = Except.ok assets := by
  unfold cmd_plan at hok
  dsimp only at hok
  split at hok
  · exact absurd hok (by simp)
  · rename_i tg vr hv
    split at hok
    · exact absurd hok (by simp)
    · rename_i dirty
      split at hok
      · exact absurd hok (by simp)
      · rename_i hdirty
        split at hok
        · exact absurd hok (by simp)
        · rename_i assets hassets
          have hd : dirty = false := by
            cases dirty
            · rfl
            · exact absurd rfl hdirty
          exact ⟨tg, vr, assets, hv, by rw [hd], hassets⟩

lemma cmd_plan_ok_shape (args : PlanArgs) (pyproject : Option PyProject)
    (tg vr : Chars) (hv : validate_tag args.tag = Except.ok (tg, vr))
    (assets : List Asset)
    (hassets : buildAssets args.name (parseTargets args.targets) = Except.ok assets) :
    cmd_plan args (some false) pyproject
      = ((if args.no_auto_python then []
          else
            match detect_python_entry_point args.name pyproject with
            | some _ => [PlanEffect.writeScript scriptName true]
            | none => [])
         ++ [PlanEffect.writeManifest (Manifest.mk tg vr args.name assets)], none) := by
  unfold cmd_plan
  rw [hv]
  dsimp only
  rw [hassets]
  simp

lemma autoPhase_runScript (fs : BuildFS) (auto : AutoPyEnv) (name : Chars)
    (toProcess : List Asset)
    (hmiss : (toProcess.filter
      (fun a => !binaryExists fs name a.target)).isEmpty = false)
    (hdet : (detect_python_entry_point name auto.pyproject).isSome)
    (hse : auto.scriptExists = true) :
    (autoPhase false fs auto name toProcess).2.1 = [BuildEffect.runScript] := by
  obtain ⟨entry, hentry⟩ := Option.isSome_iff_exists.1 hdet
  unfold autoPhase
  cases hso : auto.scriptOk
  · simp [hmiss, hentry, hse, hso]
  · simp [hmiss, hentry, hse, hso]

lemma buildCore_starts_with_pre (fs2 : BuildFS) (pre : List BuildEffect)
    (hash : Chars → Chars) (manifest : Manifest) (tf : Option Chars)
    (tag repo : Chars) :
    ∃ rest, (buildCore fs2 pre hash manifest tf tag repo).1 = pre ++ rest := by
  unfold buildCore
  dsimp only
  split
  · exact ⟨_, rfl⟩
  · exact ⟨_, by rw [List.append_assoc]⟩

/-- C9.  A successful plan run writes exactly the manifest, preceded by the
executable helper script create_python_binaries.sh precisely when
--no-auto-python is absent and a console-script entry point named after the
tool is found in pyproject.toml.  And a build run whose checks pass, with
auto-python enabled, binaries missing for some selected target, an entry
point detected and the script present, executes the script. -/
theorem c9_plan_script_generation (args : PlanArgs) (gitStatus : Option Bool)
    (pyproject : Option PyProject)
    (hok : (cmd_plan args gitStatus pyproject).2 = none) :
    (∃ m, (cmd_plan args gitStatus pyproject).1
      = (if args.no_auto_python = false ∧
            (detect_python_entry_point args.name pyproject).isSome
         then [PlanEffect.writeScript scriptName true] else [])
        ++ [PlanEffect.writeManifest m]) ∧
    (∀ (bargs : BuildArgs) (envRepo : Option Chars) (manifest : Manifest)
        (fs : BuildFS) (auto : AutoPyEnv) (hash : Chars → Chars)
        (tg vr repo : Chars),
      validate_tag bargs.tag = Except.ok (tg, vr) →
      manifest.tag = tg →
      resolveRepo bargs.repo envRepo = Except.ok repo →
      ((truthy bargs.target).isSome
        && (selectAssets (truthy bargs.target) manifest.assets).isEmpty) = false →
      bargs.no_auto_python = false →
      ((selectAssets (truthy bargs.target) manifest.assets).filter
        (fun a => !binaryExists fs manifest.name a.target)).isEmpty = false →
      (detect_python_entry_point manifest.name auto.pyproject).isSome →
      auto.scriptExists = true →
      BuildEffect.runScript ∈ (cmd_build bargs envRepo manifest fs auto hash).1) := by
  constructor
  · obtain ⟨tg, vr, assets, hv, hgit, hassets⟩ :=
      cmd_plan_ok_inv args gitStatus pyproject hok
    subst hgit
    rw [cmd_plan_ok_shape args pyproject tg vr hv assets hassets]
    refine ⟨Manifest.mk tg vr args.name assets, ?_⟩
    have halt : (if args.no_auto_python then []
          else
            match detect_python_entry_point args.name pyproject with
            | some _ => [PlanEffect.writeScript scriptName true]
            | none => [])
        = (if args.no_auto_python = false ∧
              (detect_python_entry_point args.name pyproject).isSome
           then [PlanEffect.writeScript scriptName true] else []) := by
      cases hb : args.no_auto_python
      · cases hdp : detect_python_entry_point args.name pyproject
        · simp [hdp]
        · simp [hdp]
      · simp
    rw [halt]
  · intro bargs envRepo manifest fs auto hash tg vr repo hv hm hr hempty hnoauto
      hmiss hdet hse
    unfold cmd_build
    rw [hv]
    try dsimp only
    rw [if_pos hm, hr]
    try dsimp only
    rw [hempty]
    try dsimp only
    rw [hnoauto]
    have hap := autoPhase_runScript fs auto manifest.name
      (selectAssets (truthy bargs.target) manifest.assets) hmiss hdet hse
    cases hae : (autoPhase false fs auto manifest.name
        (selectAssets (truthy bargs.target) manifest.assets)).2.2 with
    | some e =>
      simp only [Bool.false_eq_true, if_false]
      rw [hap]
      exact List.mem_cons_self _ _
    | none =>
      simp only [Bool.false_eq_true, if_false]
      obtain ⟨rest, hrest⟩ := buildCore_starts_with_pre
        (autoPhase false fs auto manifest.name
          (selectAssets (truthy bargs.target) manifest.assets)).1
        (autoPhase false fs auto manifest.name
          (selectAssets (truthy bargs.target) manifest.assets)).2.1
        hash manifest (truthy bargs.target) tg repo
      rw [hrest, hap]
      exact List.mem_append_left _ (List.mem_cons_self _ _)

def c9PlanArgs : PlanArgs :=
  PlanArgs.mk "v1.0.0".data "foo".data (some "linux-amd64".data) false

def c9Py : PyProject := PyProject.mk [("foo".data, "foo.main:run".data)] []

def c9BuildArgs : BuildArgs :=
  BuildArgs.mk "v1.0.0".data "foo".data (some "org/repo".data) none false

def c9FS : BuildFS := BuildFS.mk (fun _ => false) (fun _ => [])

def c9Auto : AutoPyEnv := AutoPyEnv.mk (some c9Py) true true c9FS

def c9Manifest : Manifest :=
  Manifest.mk "v1.0.0".data "1.0.0".data "foo".data
    [Asset.mk "linux-amd64".data "foo-linux-amd64.tar.gz".data [] []]

/-- Witness for C9: a plan run over a python project with a matching
console-script entry and a build run with missing binaries that executes the
generated script. -/
theorem c9_plan_script_generation_witness :
    (cmd_plan c9PlanArgs (some false) (some c9Py)).2 = none ∧
    (∃ m, (cmd_plan c9PlanArgs (some false) (some c9Py)).1
      = (if c9PlanArgs.no_auto_python = false ∧
            (detect_python_entry_point c9PlanArgs.name (some c9Py)).isSome
         then [PlanEffect.writeScript scriptName true] else [])
        ++ [PlanEffect.writeManifest m]) ∧
    BuildEffect.runScript
      ∈ (cmd_build c9BuildArgs none c9Manifest c9FS c9Auto (fun _ => "hh".data)).1 := by
  have hok : (cmd_plan c9PlanArgs (some false) (some c9Py)).2 = none := by decide
  have h := c9_plan_script_generation c9PlanArgs (some false) (some c9Py) hok
  refine ⟨hok, h.1, ?_⟩
  exact h.2 c9BuildArgs none c9Manifest c9FS c9Auto (fun _ => "hh".data)
    "v1.0.0".data "1.0.0".data "org/repo".data (by decide) (by decide) (by decide)
    (by decide) rfl (by decide) (by decide) rfl
